import Mathlib

/-!
Verification development for the WordListSimilarity notebook
(similarities.ipynb). The Python code is shallowly embedded: word vectors
are lists of rationals, the Python dict is an insertion-ordered
association list with replace-on-insert, file contents are abstracted as
the list of (label, coefficients) rows the line reader yields, and the
sklearn cosine similarity is modelled over the reals together with the
zero-norm guard applied by sklearn normalize.
-/

/-- A word vector: the numeric coefficients of one row of a vector file. -/
abbrev Vec := List ℚ

/-- Models Python str.lower and str.casefold; the two agree on the ASCII
identifiers and labels this program compares. -/
def pyLower (s : String) : String := ⟨s.data.map Char.toLower⟩

/-- Models Python str.startswith. -/
def pyStartsWith (s p : String) : Bool := p.data.isPrefixOf s.data

/-- Models the Python slice word[2:-1] used by the word2vec branch of
read_embeddings: drop the first two and the last character. -/
def pySliceTwoToLast (s : String) : String := ⟨(s.data.drop 2).dropLast⟩

/-- Character-level worker for pyReplace: rewrites the occurrences of
pat, non-overlapping, scanning left to right. The definition is
structural in a fuel argument so that the kernel can evaluate it; fuel
equal to the length of the scanned list always suffices because every
step consumes at least one character. -/
def replAux (pat rep : List Char) : Nat → List Char → List Char
  | _, [] => []
  | 0, s => s
  | Nat.succ fuel, c :: cs =>
    if pat ≠ [] ∧ pat.isPrefixOf (c :: cs) then
      rep ++ replAux pat rep fuel (List.drop pat.length (c :: cs))
    else
      c :: replAux pat rep fuel cs

/-- Models Python str.replace(pat, rep) for a non-empty pattern: every
non-overlapping occurrence of pat, scanned left to right, is replaced by
rep. -/
def pyReplace (s pat rep : String) : String :=
  ⟨replAux pat.data rep.data s.data.length s.data⟩

/-- Lookup in the association-list model of a Python dict; models
d.get(k, None). The construction below keeps keys unique, so taking the
first matching entry agrees with the Python dict. -/
def dget : List (String × Vec) → String → Option Vec
  | [], _ => none
  | p :: t, k => if p.1 = k then some p.2 else dget t k

/-- One insertion into the association-list model of a Python dict:
overwrite in place when the key is already present (CPython keeps the
original position of an overwritten key), append otherwise. -/
def dinsert (m : List (String × Vec)) (k : String) (v : Vec) : List (String × Vec) :=
  if m.any (fun p => p.1 = k) then
    m.map (fun p => if p.1 = k then (k, v) else p)
  else
    m ++ [(k, v)]

/-- Models the Python dict(pairs) constructor: the pairs are inserted
from left to right, so a later pair with an equal key overwrites. -/
def pyDict (l : List (String × Vec)) : List (String × Vec) :=
  l.foldl (fun m p => dinsert m p.1 p.2) []

/-- The language namespace marker the ConceptNet branch filters on. -/
def deNamespace : String := "/c/de/"

/-- Models the word2vec branch of read_embeddings: every row is kept,
the stored label is word[2:-1]. Returns (word_vectors, vector_labels). -/
def w2vLoad : List (String × Vec) → List Vec × List String
  | [] => ([], [])
  | (word, coefs) :: rest =>
    let r := w2vLoad rest
    (coefs :: r.1, pySliceTwoToLast word :: r.2)

/-- Models the GloVe branch of read_embeddings: every row is kept with
its label unchanged. The np.vstack consolidation performed afterwards by
the Python code changes the container, not the sequence of vectors, and
is dropped here. Returns (word_vectors, vector_labels). -/
def gloveLoad : List (String × Vec) → List Vec × List String
  | [] => ([], [])
  | (word, coefs) :: rest =>
    let r := gloveLoad rest
    (coefs :: r.1, word :: r.2)

/-- Models the ConceptNet / ConceptNetNB branch of read_embeddings: a row
is kept only when its raw label starts with the namespace marker, and the
stored label is word.replace(marker, empty string). Returns
(word_vectors, vector_labels). -/
def conceptnetLoad : List (String × Vec) → List Vec × List String
  | [] => ([], [])
  | (word, coefs) :: rest =>
    if pyStartsWith word deNamespace then
      let r := conceptnetLoad rest
      (coefs :: r.1, pyReplace word deNamespace "" :: r.2)
    else
      conceptnetLoad rest

/-- Models read_embeddings: dispatch on the case-folded source
identifier. File access is abstracted: rows stands for the rows the
reader would yield from the file the chosen branch opens; the error
branch never touches rows, mirroring that the ValueError is raised
before any file is opened. -/
def read_embeddings (embedding_type : String) (rows : List (String × Vec)) :
    Except String (List Vec × List String) :=
  if pyLower embedding_type = "word2vec" then Except.ok (w2vLoad rows)
  else if pyLower embedding_type = "glove" then Except.ok (gloveLoad rows)
  else if pyLower embedding_type ∈ (["conceptnetnb", "conceptnet"] : List String) then
    Except.ok (conceptnetLoad rows)
  else
    Except.error ("invalid embedding type " ++ embedding_type ++
      ": Choose either word2vec, GloVe or ConceptNetNB!")

/-- Models make_embedding_map: dict(zip(vector_labels, word_vectors)). -/
def make_embedding_map (word_vectors : List Vec) (vector_labels : List String) :
    List (String × Vec) :=
  pyDict (vector_labels.zip word_vectors)

/-- The WordEmbeddings object, with the four instance attributes assigned
by the Python constructor. -/
structure WordEmbeddings where
  embedding_type : String
  word_vectors : List Vec
  vector_labels : List String
  dict : List (String × Vec)
  deriving DecidableEq

/-- Models the WordEmbeddings constructor for a given source identifier
and file contents; a ValueError from read_embeddings propagates. -/
def WordEmbeddings.init (embedding_type : String) (rows : List (String × Vec)) :
    Except String WordEmbeddings :=
  match read_embeddings embedding_type rows with
  | Except.error e => Except.error e
  | Except.ok pr =>
    Except.ok { embedding_type := embedding_type, word_vectors := pr.1,
                vector_labels := pr.2, dict := make_embedding_map pr.1 pr.2 }

/-- The list literal of source identifiers for which getItem lowercases
the query key, as written in the Python method. -/
def lowercasedTypes : List String := ["word2vec", "glove", "conceptnet", "conceptnetnb"]

/-- Models WordEmbeddings.__getitem__: lowercase the key when the stored
source type is one of the four recognized ones, then self.dict.get(key,
None). -/
def WordEmbeddings.getItem (e : WordEmbeddings) (key : String) : Option Vec :=
  let key := if pyLower e.embedding_type ∈ lowercasedTypes then pyLower key else key
  dget e.dict key

/-- The key that getItem actually consults after the per-source
lowercasing step. -/
def WordEmbeddings.effectiveKey (e : WordEmbeddings) (key : String) : String :=
  if pyLower e.embedding_type ∈ lowercasedTypes then pyLower key else key

/-- Dot product of two coefficient lists (np.dot on rows of equal
length; a length mismatch is out of contract for the program). -/
def dotQ : List ℚ → List ℚ → ℚ
  | a :: as, b :: bs => a * b + dotQ as bs
  | _, _ => 0

/-- The per-row denominator factor used by sklearn: the l2 norm of the
row, except that a zero norm is replaced by 1 inside sklearn normalize. -/
noncomputable def safeNorm (v : Vec) : ℝ :=
  if dotQ v v = 0 then 1 else Real.sqrt ((dotQ v v : ℚ) : ℝ)

/-- Models sklearn cosine_similarity applied to two single-row inputs,
followed by .item(): the dot product of the two rows divided by the
product of their guarded norms. -/
noncomputable def cosine_similarity (v1 v2 : Vec) : ℝ :=
  ((dotQ v1 v2 : ℚ) : ℝ) / (safeNorm v1 * safeNorm v2)

/-- The diagnostic line printed for a word without vectors. -/
def diagMsg (w : String) : String := "no vectors for word " ++ w

/-- Models WordEmbeddings.get_cosine_similarity: the first component is
the returned value (None or the float), the second component collects the
diagnostic lines printed. The reshape calls only change the array shape
of a single row and are dropped. -/
noncomputable def WordEmbeddings.get_cosine_similarity (e : WordEmbeddings)
    (w1 w2 : String) : Option ℝ × List String :=
  match e.getItem w1 with
  | none => (none, [diagMsg w1])
  | some v1 =>
    match e.getItem w2 with
    | none => (none, [diagMsg w2])
    | some v2 => (some (cosine_similarity v1 v2), [])

/-- The instance attributes of a WordEmbeddings object: in Python,
self.__dict__ holds exactly the four attributes assigned in __init__. -/
def WordEmbeddings.instanceAttributes (_ : WordEmbeddings) : List String :=
  ["embedding_type", "word_vectors", "vector_labels", "dict"]

/-- Models WordEmbeddings.__len__: len(self.__dict__). -/
def WordEmbeddings.pyLen (e : WordEmbeddings) : Nat :=
  e.instanceAttributes.length

/-- Models itertools.product(ws, repeat 2): all ordered pairs of list
entries, first component in the outer position. -/
def wordCombinations (ws : List String) : List (String × String) :=
  ws.flatMap (fun a => ws.map (fun b => (a, b)))

/-- The assignment loop of the final notebook cell, generalized over the
assigned value: starting from a table with every cell unset, each pair p
sets the cell keyed by p to f p. -/
def assignAll {α : Type} (f : String × String → α) (L : List (String × String))
    (init : String × String → Option α) : String × String → Option α :=
  L.foldl (fun df p => fun q => if q = p then some (f p) else df q) init

/-- Models the similarity table of the final notebook cell for one word
list: the empty DataFrame is a table with every cell unset, and the
assignment df[w1][w2] = sim sets the cell keyed by (column w1, row w2).
The table is read as a function from (column, row) to cell content. -/
noncomputable def buildMatrix (e : WordEmbeddings) (ws : List String) :
    String × String → Option (Option ℝ) :=
  assignAll (fun p => (e.get_cosine_similarity p.1 p.2).1) (wordCombinations ws)
    (fun _ => none)

/-- Modelled from the spec: the normalized ConceptNet label is the raw
label with the leading namespace marker stripped. Stated only to compare
against the implementation in conceptnetLoad. -/
def stripLeadingNamespace (raw : String) : String :=
  if pyStartsWith raw deNamespace then ⟨raw.data.drop deNamespace.data.length⟩ else raw

/-- A sample GloVe-typed store with an empty table. -/
def embEmpty : WordEmbeddings :=
  { embedding_type := "glove", word_vectors := [], vector_labels := [], dict := [] }

/-- A sample GloVe-typed store with two words. -/
def embTwo : WordEmbeddings :=
  { embedding_type := "glove", word_vectors := [[1], [2]], vector_labels := ["a", "b"],
    dict := [("a", [1]), ("b", [2])] }

/-- A sample store holding a zero vector and a nonzero vector. -/
def embZero : WordEmbeddings :=
  { embedding_type := "glove", word_vectors := [[0, 0], [1, 2]],
    vector_labels := ["zero", "w"], dict := [("zero", [0, 0]), ("w", [1, 2])] }

/-- The store the constructor builds from one GloVe row labelled haus. -/
def embLower : WordEmbeddings :=
  { embedding_type := "glove", word_vectors := [[1]], vector_labels := ["haus"],
    dict := [("haus", [1])] }

/-- The store the constructor builds from one GloVe row labelled Abc. -/
def embAbc : WordEmbeddings :=
  { embedding_type := "glove", word_vectors := [[1]], vector_labels := ["Abc"],
    dict := [("Abc", [1])] }

theorem dotQ_comm (a b : List ℚ) : dotQ a b = dotQ b a := by
  induction a generalizing b with
  | nil => cases b <;> simp [dotQ]
  | cons x xs ih => cases b <;> simp [dotQ, mul_comm, ih]

theorem dotQ_eq_zero_left (a : List ℚ) (h : ∀ x ∈ a, x = 0) (b : List ℚ) :
    dotQ a b = 0 := by
  induction a generalizing b with
  | nil => cases b <;> simp [dotQ]
  | cons x xs ih =>
    cases b with
    | nil => simp [dotQ]
    | cons y ys =>
      have hx : x = 0 := h x (List.mem_cons_self _ _)
      have hxs : ∀ z ∈ xs, z = 0 := fun z hz => h z (List.mem_cons_of_mem _ hz)
      simp [dotQ, hx, ih hxs]

theorem cosine_similarity_comm (v1 v2 : Vec) :
    cosine_similarity v1 v2 = cosine_similarity v2 v1 := by
  unfold cosine_similarity
  rw [dotQ_comm, mul_comm]

theorem get_cos_val_comm (e : WordEmbeddings) (a b : String) :
    (e.get_cosine_similarity a b).1 = (e.get_cosine_similarity b a).1 := by
  unfold WordEmbeddings.get_cosine_similarity
  cases ha : e.getItem a <;> cases hb : e.getItem b <;>
    simp [ha, hb, cosine_similarity_comm]

theorem dget_append (m1 m2 : List (String × Vec)) (x : String) :
    dget (m1 ++ m2) x = match dget m1 x with
      | some v => some v
      | none => dget m2 x := by
  induction m1 with
  | nil => simp [dget]
  | cons p t ih =>
    by_cases hp : p.1 = x <;> simp [dget, hp, ih]

theorem dget_eq_none (m : List (String × Vec)) (k : String)
    (h : ∀ p ∈ m, p.1 ≠ k) : dget m k = none := by
  induction m with
  | nil => rfl
  | cons p t ih =>
    simp only [dget]
    rw [if_neg (h p (List.mem_cons_self _ _))]
    exact ih fun q hq => h q (List.mem_cons_of_mem _ hq)

theorem dget_overwrite (m : List (String × Vec)) (k : String) (v : Vec) (x : String) :
    dget (m.map (fun p => if p.1 = k then (k, v) else p)) x =
      if x = k then (if m.any (fun p => p.1 = k) then some v else none)
      else dget m x := by
  induction m with
  | nil => simp [dget]
  | cons p t ih =>
    by_cases hp : p.1 = k
    · by_cases hx : x = k
      · subst hx
        simp [dget, hp, ih]
      · have hkx : ¬k = x := fun hh => hx hh.symm
        simp [dget, hp, hx, hkx, ih]
    · by_cases hpx : p.1 = x
      · have hx : ¬x = k := fun hh => hp (hpx.trans hh)
        simp [dget, hp, hpx, hx]
      · have hd : decide (p.1 = k) = false := by simp [hp]
        simp [dget, hp, hpx, ih]
        rw [hd, Bool.false_or]

theorem dget_dinsert (m : List (String × Vec)) (k : String) (v : Vec) (x : String) :
    dget (dinsert m k v) x = if x = k then some v else dget m x := by
  unfold dinsert
  by_cases hany : m.any (fun p => p.1 = k) = true
  · simp [hany, dget_overwrite]
  · have hfalse : ∀ p ∈ m, p.1 ≠ k := by
      intro p hp hpk
      exact hany (List.any_eq_true.mpr ⟨p, hp, by simp [hpk]⟩)
    rw [if_neg hany, dget_append]
    by_cases hx : x = k
    · subst hx
      rw [dget_eq_none m x hfalse]
      simp [dget]
    · have hkx : ¬k = x := fun hh => hx hh.symm
      cases h : dget m x <;> simp [h, dget, hx, hkx]

theorem keys_dinsert (m : List (String × Vec)) (k : String) (v : Vec) :
    (dinsert m k v).map Prod.fst =
      if m.any (fun p => p.1 = k) then m.map Prod.fst else m.map Prod.fst ++ [k] := by
  unfold dinsert
  by_cases hany : m.any (fun p => p.1 = k) = true
  · rw [if_pos hany, if_pos hany, List.map_map]
    exact List.map_congr_left fun p _ => by by_cases hp : p.1 = k <;> simp [hp]
  · rw [if_neg hany, if_neg hany, List.map_append]
    rfl

theorem keys_nodup_dinsert (m : List (String × Vec)) (k : String) (v : Vec)
    (h : (m.map Prod.fst).Nodup) : ((dinsert m k v).map Prod.fst).Nodup := by
  rw [keys_dinsert]
  by_cases hany : m.any (fun p => p.1 = k) = true
  · simpa [hany] using h
  · rw [if_neg hany]
    have hk : k ∉ m.map Prod.fst := by
      intro hmem
      rcases List.mem_map.mp hmem with ⟨p, hp, hpk⟩
      exact hany (List.any_eq_true.mpr ⟨p, hp, by simp [hpk]⟩)
    simp [List.nodup_append, h, hk]

theorem keys_nodup_foldl (l : List (String × Vec)) (m : List (String × Vec))
    (h : (m.map Prod.fst).Nodup) :
    ((l.foldl (fun m p => dinsert m p.1 p.2) m).map Prod.fst).Nodup := by
  induction l generalizing m with
  | nil => exact h
  | cons p t ih => exact ih _ (keys_nodup_dinsert _ _ _ h)

theorem keys_nodup_pyDict (l : List (String × Vec)) :
    ((pyDict l).map Prod.fst).Nodup :=
  keys_nodup_foldl l [] (by simp)

theorem dget_foldl (l : List (String × Vec)) (m : List (String × Vec)) (x : String) :
    dget (l.foldl (fun m p => dinsert m p.1 p.2) m) x =
      match l.reverse.find? (fun p => p.1 = x) with
      | some p => some p.2
      | none => dget m x := by
  induction l generalizing m with
  | nil => simp
  | cons p t ih =>
    simp only [List.foldl_cons, List.reverse_cons]
    rw [ih, List.find?_append]
    cases h : t.reverse.find? (fun p => decide (p.1 = x)) with
    | some q => simp [h]
    | none =>
      simp only [h, Option.orElse_none, Option.none_orElse]
      rw [dget_dinsert]
      by_cases hx : x = p.1
      · simp [List.find?, hx]
      · have hpx : ¬p.1 = x := fun hh => hx hh.symm
        simp [hx, decide_eq_false hpx]

theorem dget_pyDict (l : List (String × Vec)) (x : String) :
    dget (pyDict l) x =
      (l.reverse.find? (fun p => p.1 = x)).map (fun p => p.2) := by
  unfold pyDict
  rw [dget_foldl]
  cases h : l.reverse.find? (fun p => decide (p.1 = x)) with
  | none => simp [h, dget]
  | some q => simp [h]

theorem assignAll_eval {α : Type} (f : String × String → α) (L : List (String × String))
    (init : String × String → Option α) (q : String × String) :
    assignAll f L init q = if q ∈ L then some (f q) else init q := by
  induction L generalizing init with
  | nil => simp [assignAll]
  | cons p t ih =>
    simp only [assignAll, List.foldl_cons] at ih ⊢
    rw [ih]
    by_cases hq : q ∈ t
    · simp [hq, List.mem_cons]
    · by_cases hqp : q = p
      · subst hqp
        simp [hq]
      · simp [hq, hqp, List.mem_cons]

theorem mem_wordCombinations (ws : List String) (a b : String) :
    (a, b) ∈ wordCombinations ws ↔ a ∈ ws ∧ b ∈ ws := by
  simp [wordCombinations, List.mem_flatMap, List.mem_map]

theorem getItem_effectiveKey (e : WordEmbeddings) (key : String) :
    e.getItem key = dget e.dict (e.effectiveKey key) := rfl

theorem read_embeddings_ok_type (t : String) (rows : List (String × Vec))
    (pr : List Vec × List String) (h : read_embeddings t rows = Except.ok pr) :
    pyLower t ∈ lowercasedTypes := by
  unfold read_embeddings at h
  by_cases h1 : pyLower t = "word2vec"
  · simp [lowercasedTypes, h1]
  · rw [if_neg h1] at h
    by_cases h2 : pyLower t = "glove"
    · simp [lowercasedTypes, h2]
    · rw [if_neg h2] at h
      by_cases h3 : pyLower t ∈ (["conceptnetnb", "conceptnet"] : List String)
      · simp only [lowercasedTypes, List.mem_cons, List.not_mem_nil] at h3 ⊢
        tauto
      · rw [if_neg h3] at h
        exact absurd h (by simp)

theorem init_ok_fields (t : String) (rows : List (String × Vec))
    (e : WordEmbeddings) (h : WordEmbeddings.init t rows = Except.ok e) :
    e.embedding_type = t ∧ pyLower e.embedding_type ∈ lowercasedTypes := by
  unfold WordEmbeddings.init at h
  cases hr : read_embeddings t rows with
  | error s =>
    rw [hr] at h
    exact absurd h (by simp)
  | ok pr =>
    rw [hr] at h
    injection h with h2
    constructor
    · rw [← h2]
    · rw [← h2]
      exact read_embeddings_ok_type t rows pr hr

/-- Claim C1 counterexample: the loader accepts the row with raw label
"/c/de//c/de/x" (it starts with the marker), but the stored label is the
result of replacing every occurrence of the marker, namely "x", not the
leading-marker-stripped label "/c/de/x" that the claim predicts. -/
theorem claim_C1_counterexample :
    conceptnetLoad [("/c/de//c/de/x", [1])] = ([[1]], ["x"]) ∧
    stripLeadingNamespace "/c/de//c/de/x" = "/c/de/x" ∧
    ("x" : String) ≠ "/c/de/x" :=
  ⟨by decide, by decide, by decide⟩

/-- Claim C1 (amended): the ConceptNet loader accepts a row if and only
if its raw label starts with "/c/de/"; each accepted row keeps its vector
unchanged and stores the label obtained by removing every occurrence of
"/c/de/" from the raw label (Python str.replace semantics), which equals
stripping the leading marker whenever the marker occurs only at the
start; all other rows are dropped. -/
theorem claim_C1_amended (rows : List (String × Vec)) :
    (conceptnetLoad rows).1 =
      (rows.filter (fun r => pyStartsWith r.1 deNamespace)).map (fun r => r.2) ∧
    (conceptnetLoad rows).2 =
      (rows.filter (fun r => pyStartsWith r.1 deNamespace)).map
        (fun r => pyReplace r.1 deNamespace "") := by
  induction rows with
  | nil => exact ⟨rfl, rfl⟩
  | cons r t ih =>
    obtain ⟨w, cs⟩ := r
    by_cases h : pyStartsWith w deNamespace = true
    · simp [conceptnetLoad, h, List.filter_cons, ih.1, ih.2]
    · simp [conceptnetLoad, h, List.filter_cons, ih.1, ih.2]

/-- Claim C2: for every store and word list, the assignment loop fills
every one of the ordered pairs of list words, and the cell in row r and
column c (the table is keyed by (column, row)) holds the cosine
similarity result of (r, c). -/
theorem claim_C2 (e : WordEmbeddings) (ws : List String) (r c : String)
    (hr : r ∈ ws) (hc : c ∈ ws) :
    buildMatrix e ws (c, r) = some ((e.get_cosine_similarity r c).1) := by
  unfold buildMatrix
  rw [assignAll_eval, if_pos ((mem_wordCombinations ws c r).mpr ⟨hc, hr⟩)]
  exact congrArg some (get_cos_val_comm e c r)

/-- Claim C2 witness at a concrete store and two-word list. -/
theorem claim_C2_witness :
    ("a" : String) ∈ (["a", "b"] : List String) ∧
    ("b" : String) ∈ (["a", "b"] : List String) ∧
    buildMatrix embTwo ["a", "b"] ("b", "a") =
      some ((embTwo.get_cosine_similarity "a" "b").1) :=
  ⟨by decide, by decide, claim_C2 embTwo ["a", "b"] "a" "b" (by decide) (by decide)⟩

/-- Claim C3: when either word lacks a vector, get_cosine_similarity
yields None — the embedded function is total, so no exception is raised —
and the diagnostic output names one of the unavailable words. -/
theorem claim_C3 (e : WordEmbeddings) (w1 w2 : String)
    (h : e.getItem w1 = none ∨ e.getItem w2 = none) :
    (e.get_cosine_similarity w1 w2).1 = none ∧
    ((e.get_cosine_similarity w1 w2).2 = [diagMsg w1] ∨
      (e.get_cosine_similarity w1 w2).2 = [diagMsg w2]) := by
  unfold WordEmbeddings.get_cosine_similarity
  cases h1 : e.getItem w1 with
  | none => simp [h1]
  | some v1 =>
    cases h2 : e.getItem w2 with
    | none => simp [h1, h2]
    | some v2 =>
      rcases h with h | h
      · rw [h1] at h
        exact absurd h (by simp)
      · rw [h2] at h
        exact absurd h (by simp)

/-- Claim C3 witness at a store with an empty table. -/
theorem claim_C3_witness :
    (embEmpty.get_cosine_similarity "x" "y").1 = none ∧
    ((embEmpty.get_cosine_similarity "x" "y").2 = [diagMsg "x"] ∨
      (embEmpty.get_cosine_similarity "x" "y").2 = [diagMsg "y"]) :=
  claim_C3 embEmpty "x" "y" (Or.inl (by decide))

/-- Claim C4 counterexample: the store built by the constructor from one
GloVe row labelled haus does not have "Haus" as a key of its mapping, yet
looking up "Haus" returns the stored vector instead of None, because the
query key is lowercased before the mapping is consulted. -/
theorem claim_C4_counterexample :
    WordEmbeddings.init "glove" [("haus", [1])] = Except.ok embLower ∧
    dget embLower.dict "Haus" = none ∧
    embLower.getItem "Haus" = some [1] :=
  ⟨rfl, by decide, by decide⟩

/-- Claim C4 (amended): getItem consults the effective key — the query
lowercased when the source type is one of the four recognized ones,
unchanged otherwise. When that effective key is absent from the mapping
the result is None and, the embedded function being total, no exception
is raised; when it is present the stored vector is returned. A raw query
absent from the mapping can therefore still resolve through its
lowercased form. -/
theorem claim_C4_amended (e : WordEmbeddings) (key : String) :
    (dget e.dict (e.effectiveKey key) = none → e.getItem key = none) ∧
    (∀ v : Vec, dget e.dict (e.effectiveKey key) = some v → e.getItem key = some v) := by
  constructor
  · intro h
    rw [getItem_effectiveKey, h]
  · intro v h
    rw [getItem_effectiveKey, h]

/-- Claim C4 witness: a key whose effective key is absent yields None. -/
theorem claim_C4_amended_witness :
    dget embLower.dict (embLower.effectiveKey "Xyz") = none ∧
    embLower.getItem "Xyz" = none :=
  ⟨by decide, (claim_C4_amended embLower "Xyz").1 (by decide)⟩

/-- Claim C5: an unrecognized case-folded source identifier makes
read_embeddings fail with the ValueError naming the supported sources,
and the result is the same error for every file content — the failure
does not depend on any file access. -/
theorem claim_C5 (embedding_type : String)
    (h : pyLower embedding_type ∉ lowercasedTypes) (rows : List (String × Vec)) :
    read_embeddings embedding_type rows =
      Except.error ("invalid embedding type " ++ embedding_type ++
        ": Choose either word2vec, GloVe or ConceptNetNB!") := by
  simp only [lowercasedTypes, List.mem_cons, List.not_mem_nil, or_false, not_or] at h
  obtain ⟨h1, h2, h3, h4⟩ := h
  unfold read_embeddings
  rw [if_neg h1, if_neg h2, if_neg (by simp [List.mem_cons, h3, h4])]

/-- Claim C5 witness at the identifier fastText. -/
theorem claim_C5_witness :
    pyLower "fastText" ∉ lowercasedTypes ∧
    read_embeddings "fastText" [] =
      Except.error ("invalid embedding type " ++ "fastText" ++
        ": Choose either word2vec, GloVe or ConceptNetNB!") :=
  ⟨by decide, claim_C5 "fastText" (by decide) []⟩

/-- Claim C6: when a label occurs more than once in the loader output,
the mapping assembled by make_embedding_map sends it to the vector of the
last row bearing that label (last-write-wins), and the keys of the
resulting mapping are unique. -/
theorem claim_C6 (word_vectors : List Vec) (vector_labels : List String) (l : String)
    (hlen : vector_labels.length = word_vectors.length)
    (hdup : 2 ≤ vector_labels.count l) :
    dget (make_embedding_map word_vectors vector_labels) l =
      ((vector_labels.zip word_vectors).reverse.find? (fun p => p.1 = l)).map
        (fun p => p.2) ∧
    ((make_embedding_map word_vectors vector_labels).map Prod.fst).Nodup :=
  ⟨dget_pyDict _ l, keys_nodup_pyDict _⟩

/-- Claim C6 witness: for the duplicate label a the second vector wins. -/
theorem claim_C6_witness :
    (["a", "a"] : List String).length = ([[1], [2]] : List Vec).length ∧
    2 ≤ (["a", "a"] : List String).count "a" ∧
    dget (make_embedding_map [[1], [2]] ["a", "a"]) "a" =
      (((["a", "a"] : List String).zip ([[1], [2]] : List Vec)).reverse.find?
        (fun p => p.1 = "a")).map (fun p => p.2) ∧
    ((make_embedding_map [[1], [2]] ["a", "a"]).map Prod.fst).Nodup :=
  ⟨by decide, by decide,
    (claim_C6 [[1], [2]] ["a", "a"] "a" (by decide) (by decide)).1,
    (claim_C6 [[1], [2]] ["a", "a"] "a" (by decide) (by decide)).2⟩

/-- Claim C7: when both words have vectors in the store, the cosine
similarity result is symmetric in its two arguments. -/
theorem claim_C7 (e : WordEmbeddings) (w1 w2 : String) (v1 v2 : Vec)
    (h1 : e.getItem w1 = some v1) (h2 : e.getItem w2 = some v2) :
    e.get_cosine_similarity w1 w2 = e.get_cosine_similarity w2 w1 := by
  unfold WordEmbeddings.get_cosine_similarity
  simp [h1, h2, cosine_similarity_comm v1 v2]

/-- Claim C7 witness at a concrete two-word store. -/
theorem claim_C7_witness :
    embTwo.getItem "a" = some [1] ∧ embTwo.getItem "b" = some [2] ∧
    embTwo.get_cosine_similarity "a" "b" = embTwo.get_cosine_similarity "b" "a" :=
  ⟨by decide, by decide, claim_C7 embTwo "a" "b" [1] [2] (by decide) (by decide)⟩

/-- Claim C8 counterexample: in the sample store the word zero holds the
zero vector, and the similarity of (zero, w) is the numeric value 0, not
a missing result: sklearn normalize turns the zero norm into 1, so
neither NaN nor a missing marker is produced. -/
theorem claim_C8_counterexample :
    embZero.getItem "zero" = some [0, 0] ∧
    (embZero.get_cosine_similarity "zero" "w").1 = some 0 ∧
    (embZero.get_cosine_similarity "zero" "w").1 ≠ none := by
  have hz : embZero.getItem "zero" = some [0, 0] := by decide
  have hw : embZero.getItem "w" = some [1, 2] := by decide
  have hc : cosine_similarity [0, 0] [1, 2] = 0 := by
    unfold cosine_similarity
    rw [dotQ_eq_zero_left [0, 0] (by decide) [1, 2]]
    simp
  refine ⟨hz, ?_, ?_⟩ <;>
    simp [WordEmbeddings.get_cosine_similarity, hz, hw, hc]

/-- Claim C8 (amended): when the first word stores an all-zero vector and
the second lookup also succeeds, get_cosine_similarity returns the
numeric value 0 with no diagnostic — not a missing result and not NaN,
because the zero norm is replaced by 1 in the denominator; missing
results arise only from failed lookups. -/
theorem claim_C8_amended (e : WordEmbeddings) (w1 w2 : String) (v1 v2 : Vec)
    (h1 : e.getItem w1 = some v1) (hz : ∀ x ∈ v1, x = 0)
    (h2 : e.getItem w2 = some v2) :
    e.get_cosine_similarity w1 w2 = (some 0, []) := by
  have hc : cosine_similarity v1 v2 = 0 := by
    unfold cosine_similarity
    rw [dotQ_eq_zero_left v1 hz v2]
    simp
  unfold WordEmbeddings.get_cosine_similarity
  simp [h1, h2, hc]

/-- Claim C8 witness at the sample store with a zero vector. -/
theorem claim_C8_amended_witness :
    embZero.get_cosine_similarity "zero" "w" = (some 0, []) :=
  claim_C8_amended embZero "zero" "w" [0, 0] [1, 2] (by decide) (by decide) (by decide)

/-- Claim C9: __len__ returns the number of instance attributes of the
object, which is always 4, not the number of words in the table. -/
theorem claim_C9 (e : WordEmbeddings) :
    e.pyLen = 4 ∧ (e.dict.length ≠ 4 → e.pyLen ≠ e.dict.length) := by
  refine ⟨rfl, fun h hc => h ?_⟩
  rw [← hc]
  rfl

/-- Claim C9 witness: a two-word store still reports length 4. -/
theorem claim_C9_witness :
    embTwo.pyLen = 4 ∧ embTwo.pyLen ≠ embTwo.dict.length :=
  ⟨(claim_C9 embTwo).1, (claim_C9 embTwo).2 (by decide)⟩

/-- Claim C10: in every store the constructor builds, a stored label that
contains an uppercase character and whose lowercased form is not itself a
key is unreachable through getItem: the lookup lowercases the query for
every recognized source type while construction never lowercases stored
labels, so getItem returns None on that label even though the label is a
key of the underlying mapping. -/
theorem claim_C10 (t : String) (rows : List (String × Vec)) (e : WordEmbeddings)
    (hinit : WordEmbeddings.init t rows = Except.ok e) (l : String)
    (hkey : l ∈ e.dict.map Prod.fst)
    (hup : ∃ c ∈ l.data, c.isUpper)
    (hlow : pyLower l ∉ e.dict.map Prod.fst) :
    e.getItem l = none := by
  obtain ⟨-, htype⟩ := init_ok_fields t rows e hinit
  show dget e.dict (if pyLower e.embedding_type ∈ lowercasedTypes then pyLower l else l) = none
  rw [if_pos htype]
  exact dget_eq_none _ _ fun p hp hpk => hlow (List.mem_map.mpr ⟨p, hp, hpk⟩)

/-- Claim C10 witness: the constructed store holds the key Abc, but the
lookup of Abc misses because abc is not a key. -/
theorem claim_C10_witness : embAbc.getItem "Abc" = none :=
  claim_C10 "glove" [("Abc", [1])] embAbc rfl "Abc" (by decide) (by decide) (by decide)
